import Mathlib

/-!
Verification of the MIRAI `z3_solver.rs` expression-to-constraint encoder.

The Rust source lowers MIRAI's symbolic `Expression` tree to Z3 ASTs through
four mutually recursive views:
  * `get_as_z3_ast`          (the "any" view),
  * `get_as_numeric_z3_ast`  (numeric view, result paired with an is-float flag),
  * `get_as_bool_z3_ast`     (boolean view),
  * `get_as_bv_z3_ast`       (bit-vector view at an explicit width).

We embed the Z3 term algebra as an inductive type `Z3Ast` whose constructors
mirror exactly the `z3_sys` constructor calls made by the source, and embed
the four view functions with the same names, arm for arm.  Z3's
`Z3_mk_fresh_const` draws a fresh symbol from the context, and the fallback
arm of the any view logs a diagnostic; both effects are made explicit by
threading an `EncState` (fresh counter plus diagnostic log).  A Rust
`assert!`/`assert_eq!` failure aborts the process; the embedding returns
`none` in that case, so every view has type `... → EncState → Option (_ × EncState)`.
-/

namespace MiraiZ3

/-- Z3 sorts used by the encoder: the uninterpreted "any" sort, booleans,
mathematical integers, the two IEEE float sorts and bit-vector sorts of a
given width (`Z3_mk_bv_sort`). -/
inductive Z3Sort
  | any
  | bool
  | int
  | f32
  | f64
  | bv (w : Nat)
deriving DecidableEq, Repr

set_option maxHeartbeats 1600000 in
/-- The Z3 term algebra, one constructor per `z3_sys` constructor call shape
in the source.  Numerals built by `Z3_mk_int`, `Z3_mk_int64`,
`Z3_mk_unsigned_int64` and the decimal-string `Z3_mk_numeral` all denote the
same integer numeral in Z3, so all four map to `intNum`.  Float numerals are
kept as the raw bit pattern handed to `f32::from_bits`/`f64::from_bits`.
The source only ever calls `Z3_mk_and`/`Z3_mk_add`/`Z3_mk_mul`/`Z3_mk_sub`
on two-element vectors and `Z3_mk_or` on two- or three-element vectors, so
those appear at the arities used (`andA`, `orA`, `or3A`, ...).
`Z3_mk_fresh_const` becomes `freshConstA` applied to the context's fresh
counter. -/
inductive Z3Ast
  | trueA
  | falseA
  | intNum (v : Int)
  | fpaNum32 (bits : Nat)
  | fpaNum64 (bits : Nat)
  | nearestEven
  | andA (l r : Z3Ast)
  | orA (l r : Z3Ast)
  | or3A (a b c : Z3Ast)
  | notA (a : Z3Ast)
  | eqA (l r : Z3Ast)
  | geA (l r : Z3Ast)
  | gtA (l r : Z3Ast)
  | leA (l r : Z3Ast)
  | ltA (l r : Z3Ast)
  | addA (l r : Z3Ast)
  | mulA (l r : Z3Ast)
  | subA (l r : Z3Ast)
  | divA (l r : Z3Ast)
  | remA (l r : Z3Ast)
  | unaryMinusA (a : Z3Ast)
  | fpaAddA (rm l r : Z3Ast)
  | fpaSubA (rm l r : Z3Ast)
  | fpaMulA (rm l r : Z3Ast)
  | fpaDivA (rm l r : Z3Ast)
  | fpaRemA (l r : Z3Ast)
  | fpaNegA (a : Z3Ast)
  | fpaEqA (l r : Z3Ast)
  | fpaGeA (l r : Z3Ast)
  | fpaGtA (l r : Z3Ast)
  | fpaLeA (l r : Z3Ast)
  | fpaLtA (l r : Z3Ast)
  | fpaIsNaNA (a : Z3Ast)
  | iteA (c t e : Z3Ast)
  | bvAndA (l r : Z3Ast)
  | bvOrA (l r : Z3Ast)
  | bvXorA (l r : Z3Ast)
  | bvShlA (l r : Z3Ast)
  | bvAShrA (l r : Z3Ast)
  | bvLShrA (l r : Z3Ast)
  | bvAddNoOverflowA (l r : Z3Ast) (isSigned : Bool)
  | bvAddNoUnderflowA (l r : Z3Ast)
  | bvSubNoOverflowA (l r : Z3Ast)
  | bvSubNoUnderflowA (l r : Z3Ast) (isSigned : Bool)
  | bvMulNoOverflowA (l r : Z3Ast) (isSigned : Bool)
  | bvMulNoUnderflowA (l r : Z3Ast)
  | int2bvA (w : Nat) (a : Z3Ast)
  | bv2intA (a : Z3Ast) (isSigned : Bool)
  | constA (name : String) (sort : Z3Sort)
  | freshConstA (id : Nat) (sort : Z3Sort)
deriving DecidableEq, Repr

/-- MIRAI's `ExpressionType` (the IR's declared-type descriptor), as consumed
by `z3_solver.rs`: the arms matched there are `Bool`, `Char`, the signed and
unsigned integer widths, `F32`/`F64` and `NonPrimitive`. -/
inductive ExpressionType
  | Bool
  | Char
  | F32
  | F64
  | I8
  | I16
  | I32
  | I64
  | I128
  | Isize
  | U8
  | U16
  | U32
  | U64
  | U128
  | Usize
  | NonPrimitive
deriving DecidableEq, Repr

/-- Modelled from the spec: the result-type descriptor "exposing bit-width"
(`ExpressionType::bit_length`, defined in `expression.rs`, which is not part
of the sources under review).  Each fixed-width type reports its width;
`char` is a 16-bit code point, the pointer-sized types report the usual
64-bit target width. -/
def bit_length : ExpressionType → Nat
  | .Bool => 1
  | .Char => 16
  | .F32 => 32
  | .F64 => 64
  | .I8 => 8
  | .I16 => 16
  | .I32 => 32
  | .I64 => 64
  | .I128 => 128
  | .Isize => 64
  | .U8 => 8
  | .U16 => 16
  | .U32 => 32
  | .U64 => 64
  | .U128 => 128
  | .Usize => 64
  | .NonPrimitive => 128

/-- Modelled from the spec: the result-type descriptor "exposing ...
signedness" (`ExpressionType::is_signed_integer`, defined in
`expression.rs`): true exactly on the signed integer types. -/
def is_signed_integer : ExpressionType → Bool
  | .I8 | .I16 | .I32 | .I64 | .I128 | .Isize => true
  | _ => false

/-- MIRAI's `ConstantDomain`, as consumed by `z3_solver.rs`: the variants
matched there are `Char`, `False`, `True`, `I128`, `U128`, `F32`, `F64`; the
remaining variants (represented here by `Str` and `Bottom`) hit the
wildcard fallback arm.  A `char` value is kept as its Unicode code point;
float constants are kept as their raw bit patterns, exactly what the source
hands to `f32::from_bits`/`f64::from_bits`. -/
inductive ConstantDomain
  | Char (code_point : Nat)
  | False
  | True
  | I128 (v : Int)
  | U128 (v : Nat)
  | F32 (bits : Nat)
  | F64 (bits : Nat)
  | Str (s : String)
  | Bottom
deriving DecidableEq, Repr

/-- MIRAI's `Expression` tree, as consumed by `z3_solver.rs`.  In the source
each child is a boxed `AbstractValue` whose `.expression` field is read; the
embedding stores the child expression directly.  A `Path` is identified by
its debug rendering (`format!("{:?}", path)`), which is the string the source
uses as the Z3 symbol name, so paths are embedded as that string. -/
inductive Expression
  | Add (left right : Expression)
  | AddOverflows (left right : Expression) (result_type : ExpressionType)
  | And (left right : Expression)
  | BitAnd (left right : Expression)
  | BitOr (left right : Expression)
  | BitXor (left right : Expression)
  | CompileTimeConstant (c : ConstantDomain)
  | ConditionalExpression (condition consequent alternate : Expression)
  | Div (left right : Expression)
  | Equals (left right : Expression)
  | GreaterOrEqual (left right : Expression)
  | GreaterThan (left right : Expression)
  | LessOrEqual (left right : Expression)
  | LessThan (left right : Expression)
  | Mul (left right : Expression)
  | MulOverflows (left right : Expression) (result_type : ExpressionType)
  | Rem (left right : Expression)
  | Ne (left right : Expression)
  | Neg (operand : Expression)
  | Not (operand : Expression)
  | Or (left right : Expression)
  | Reference (path : String)
  | Shl (left right : Expression)
  | Shr (left right : Expression) (result_type : ExpressionType)
  | ShlOverflows (left right : Expression) (result_type : ExpressionType)
  | ShrOverflows (left right : Expression) (result_type : ExpressionType)
  | Sub (left right : Expression)
  | SubOverflows (left right : Expression) (result_type : ExpressionType)
  | Top
  | Variable (path : String) (var_type : ExpressionType)
deriving DecidableEq, Repr

/-- The explicit encoder state: the Z3 context's fresh-constant counter
(`Z3_mk_fresh_const` draws the next fresh symbol) and the diagnostic log
written by the `info!` call in the any view's fallback arm. -/
structure EncState where
  fresh : Nat
  log : List Expression
deriving DecidableEq, Repr

/-- The `Z3_mk_fresh_const` call: returns a fresh constant of the given sort and
advances the context's fresh counter. -/
def mkFresh (sort : Z3Sort) (s : EncState) : Z3Ast × EncState :=
  (Z3Ast.freshConstA s.fresh sort, { s with fresh := s.fresh + 1 })

/-- The `info!("uninterpreted expression: ...")` diagnostic in the any view's
fallback arm: appends the offending expression to the log. -/
def logDiag (e : Expression) (s : EncState) : EncState :=
  { s with log := s.log ++ [e] }

/-- Keep only the term of a numeric-view result (the Rust `.1` projection on
the `(bool, Z3_ast)` pair). -/
def dropFloat (r : Option ((Bool × Z3Ast) × EncState)) : Option (Z3Ast × EncState) :=
  r.map (fun p => (p.1.2, p.2))

/-- Fold a boolean any-view result to the integer 1-or-0 used by
`get_as_numeric_z3_ast` for boolean-producing nodes
(`Z3_mk_ite(ast, one, zero)` with the cached numerals 1 and 0). -/
def numFold (r : Option (Z3Ast × EncState)) : Option ((Bool × Z3Ast) × EncState) :=
  r.map (fun p => ((false, Z3Ast.iteA p.1 (Z3Ast.intNum 1) (Z3Ast.intNum 0)), p.2))

/-- Convert a 128-bit bit-vector-view result to a non-negative integer, as
`get_as_numeric_z3_ast` does for bitwise/shift nodes
(`Z3_mk_bv2int(ast, false)`). -/
def bvFold (r : Option (Z3Ast × EncState)) : Option ((Bool × Z3Ast) × EncState) :=
  r.map (fun p => ((false, Z3Ast.bv2intA p.1 false), p.2))

/-- Tag an any-view result with the given is-float flag. -/
def withFloat (f : Bool) (r : Option (Z3Ast × EncState)) :
    Option ((Bool × Z3Ast) × EncState) :=
  r.map (fun p => ((f, p.1), p.2))

/-- The "nonzero" test `get_as_bool_z3_ast` applies to a 128-bit bitwise
result: convert to integer, compare with the cached zero, negate. -/
def bvNonzero (r : Option (Z3Ast × EncState)) : Option (Z3Ast × EncState) :=
  r.map (fun p =>
    (Z3Ast.notA (Z3Ast.eqA (Z3Ast.bv2intA p.1 false) (Z3Ast.intNum 0)), p.2))

/-- The boolean-to-bit-vector coercion `get_as_bv_z3_ast` applies to
boolean-shaped nodes: if-then-else between `int2bv` of the cached numerals
1 and 0 at the requested width. -/
def boolToBv (w : Nat) (r : Option (Z3Ast × EncState)) : Option (Z3Ast × EncState) :=
  r.map (fun p =>
    (Z3Ast.iteA p.1 (Z3Ast.int2bvA w (Z3Ast.intNum 1))
      (Z3Ast.int2bvA w (Z3Ast.intNum 0)), p.2))

/-- Termination weight of the any view: on the kinds whose any-view arm
delegates to another view on the *same* expression (arithmetic and
`Reference` delegate to the numeric view, the bitwise kinds to the
bit-vector view). -/
@[simp] def anyW : Expression → Nat
  | .Add _ _ | .Div _ _ | .Mul _ _ | .Rem _ _ | .Sub _ _ | .Reference _
  | .BitAnd _ _ | .BitOr _ _ | .BitXor _ _ => 1
  | _ => 0

/-- Termination weight of the numeric view: on the kinds whose numeric-view
arm delegates to the any view or the bit-vector view on the same
expression. -/
@[simp] def numW : Expression → Nat
  | .And _ _ | .Or _ _ | .Not _ | .Equals _ _ | .Ne _ _
  | .GreaterOrEqual _ _ | .GreaterThan _ _ | .LessOrEqual _ _ | .LessThan _ _
  | .BitAnd _ _ | .BitOr _ _ | .BitXor _ _ | .Shl _ _ | .Shr _ _ _
  | .CompileTimeConstant _ | .Variable _ _
  | .AddOverflows _ _ _ | .SubOverflows _ _ _ | .MulOverflows _ _ _
  | .ShlOverflows _ _ _ | .ShrOverflows _ _ _ => 1
  | _ => 0

/-- Termination weight of the boolean view (it only ever delegates to the
any view on the same expression). -/
@[simp] def boolW : Expression → Nat := fun _ => 2

/-- Termination weight of the bit-vector view. -/
@[simp] def bvW : Expression → Nat
  | .BitAnd _ _ | .BitOr _ _ | .BitXor _ _ | .Shl _ _ | .Shr _ _ _
  | .ConditionalExpression _ _ _ | .Variable _ _ | .Top => 0
  | _ => 2

theorem anyW_le_one (e : Expression) : anyW e ≤ 1 := by
  cases e <;> simp

mutual

/-- The source's `Z3Solver::get_as_z3_ast` (the any view), arm for arm. -/
def get_as_z3_ast : Expression → EncState → Option (Z3Ast × EncState)
  | .Add l r, s => dropFloat (get_as_numeric_z3_ast (.Add l r) s)
  | .Div l r, s => dropFloat (get_as_numeric_z3_ast (.Div l r) s)
  | .Mul l r, s => dropFloat (get_as_numeric_z3_ast (.Mul l r) s)
  | .Rem l r, s => dropFloat (get_as_numeric_z3_ast (.Rem l r) s)
  | .Sub l r, s => dropFloat (get_as_numeric_z3_ast (.Sub l r) s)
  | .AddOverflows l r rt, s =>
    match get_as_bv_z3_ast l (bit_length rt) s with
    | none => none
    | some (left_bv, s1) =>
      match get_as_bv_z3_ast r (bit_length rt) s1 with
      | none => none
      | some (right_bv, s2) =>
        let does_not_overflow :=
          Z3Ast.bvAddNoOverflowA left_bv right_bv (is_signed_integer rt)
        if is_signed_integer rt then
          let does_not_underflow := Z3Ast.bvAddNoUnderflowA left_bv right_bv
          some (.notA (.andA does_not_overflow does_not_underflow), s2)
        else
          some (.notA does_not_overflow, s2)
  | .And l r, s =>
    match get_as_bool_z3_ast l s with
    | none => none
    | some (la, s1) =>
      match get_as_bool_z3_ast r s1 with
      | none => none
      | some (ra, s2) => some (.andA la ra, s2)
  | .BitAnd l r, s => get_as_bv_z3_ast (.BitAnd l r) 128 s
  | .BitOr l r, s => get_as_bv_z3_ast (.BitOr l r) 128 s
  | .BitXor l r, s => get_as_bv_z3_ast (.BitXor l r) 128 s
  | .CompileTimeConstant c, s =>
    match c with
    | .Char v => some (.intNum ((v % 65536 : Nat) : Int), s)
    | .False => some (.falseA, s)
    | .I128 v => some (.intNum v, s)
    | .F32 bits => some (.fpaNum32 bits, s)
    | .F64 bits => some (.fpaNum64 bits, s)
    | .U128 v => some (.intNum (v : Int), s)
    | .True => some (.trueA, s)
    | _ => some (mkFresh .any s)
  | .ConditionalExpression c t a, s =>
    match get_as_bool_z3_ast c s with
    | none => none
    | some (ca, s1) =>
      match get_as_z3_ast t s1 with
      | none => none
      | some (ta, s2) =>
        match get_as_z3_ast a s2 with
        | none => none
        | some (aa, s3) => some (.iteA ca ta aa, s3)
  | .Equals l r, s =>
    match get_as_numeric_z3_ast l s with
    | none => none
    | some ((lf, la), s1) =>
      match get_as_numeric_z3_ast r s1 with
      | none => none
      | some ((rf, ra), s2) =>
        if lf = rf then
          some (if lf then .fpaEqA la ra else .eqA la ra, s2)
        else none
  | .GreaterOrEqual l r, s =>
    match get_as_numeric_z3_ast l s with
    | none => none
    | some ((lf, la), s1) =>
      match get_as_numeric_z3_ast r s1 with
      | none => none
      | some ((rf, ra), s2) =>
        if lf = rf then
          some (if lf then .fpaGeA la ra else .geA la ra, s2)
        else none
  | .GreaterThan l r, s =>
    match get_as_numeric_z3_ast l s with
    | none => none
    | some ((lf, la), s1) =>
      match get_as_numeric_z3_ast r s1 with
      | none => none
      | some ((rf, ra), s2) =>
        if lf = rf then
          some (if lf then .fpaGtA la ra else .gtA la ra, s2)
        else none
  | .LessOrEqual l r, s =>
    match get_as_numeric_z3_ast l s with
    | none => none
    | some ((lf, la), s1) =>
      match get_as_numeric_z3_ast r s1 with
      | none => none
      | some ((rf, ra), s2) =>
        if lf = rf then
          some (if lf then .fpaLeA la ra else .leA la ra, s2)
        else none
  | .LessThan l r, s =>
    match get_as_numeric_z3_ast l s with
    | none => none
    | some ((lf, la), s1) =>
      match get_as_numeric_z3_ast r s1 with
      | none => none
      | some ((rf, ra), s2) =>
        if lf = rf then
          some (if lf then .fpaLtA la ra else .ltA la ra, s2)
        else none
  | .MulOverflows l r rt, s =>
    match get_as_bv_z3_ast l (bit_length rt) s with
    | none => none
    | some (left_bv, s1) =>
      match get_as_bv_z3_ast r (bit_length rt) s1 with
      | none => none
      | some (right_bv, s2) =>
        let does_not_overflow :=
          Z3Ast.bvMulNoOverflowA left_bv right_bv (is_signed_integer rt)
        if is_signed_integer rt then
          let does_not_underflow := Z3Ast.bvMulNoUnderflowA left_bv right_bv
          some (.notA (.andA does_not_overflow does_not_underflow), s2)
        else
          some (.notA does_not_overflow, s2)
  | .Ne l r, s =>
    match get_as_numeric_z3_ast l s with
    | none => none
    | some ((lf, la), s1) =>
      match get_as_numeric_z3_ast r s1 with
      | none => none
      | some ((rf, ra), s2) =>
        if lf = rf then
          if lf then
            some (.or3A (.fpaIsNaNA la) (.fpaIsNaNA ra) (.notA (.fpaEqA la ra)), s2)
          else
            some (.notA (.eqA la ra), s2)
        else none
  | .Neg x, s =>
    match get_as_numeric_z3_ast x s with
    | none => none
    | some ((f, xa), s1) =>
      some (if f then .fpaNegA xa else .unaryMinusA xa, s1)
  | .Not x, s =>
    match get_as_bool_z3_ast x s with
    | none => none
    | some (xa, s1) => some (.notA xa, s1)
  | .Or l r, s =>
    match get_as_bool_z3_ast l s with
    | none => none
    | some (la, s1) =>
      match get_as_bool_z3_ast r s1 with
      | none => none
      | some (ra, s2) => some (.orA la ra, s2)
  | .Reference p, s => dropFloat (get_as_numeric_z3_ast (.Reference p) s)
  | .Shl l r, s =>
    match get_as_bv_z3_ast l 128 s with
    | none => none
    | some (la, s1) =>
      match get_as_bv_z3_ast r 128 s1 with
      | none => none
      | some (ra, s2) => some (.bvShlA la ra, s2)
  | .Shr l r rt, s =>
    match get_as_bv_z3_ast l (bit_length rt) s with
    | none => none
    | some (la, s1) =>
      match get_as_bv_z3_ast r (bit_length rt) s1 with
      | none => none
      | some (ra, s2) =>
        some (if is_signed_integer rt then .bvAShrA la ra else .bvLShrA la ra, s2)
  | .ShlOverflows _ r rt, s =>
    match get_as_numeric_z3_ast r s with
    | none => none
    | some ((f, ra), s1) =>
      if f then none
      else some (.geA ra (.intNum (bit_length rt)), s1)
  | .ShrOverflows _ r rt, s =>
    match get_as_numeric_z3_ast r s with
    | none => none
    | some ((f, ra), s1) =>
      if f then none
      else some (.geA ra (.intNum (bit_length rt)), s1)
  | .SubOverflows l r rt, s =>
    match get_as_bv_z3_ast l (bit_length rt) s with
    | none => none
    | some (left_bv, s1) =>
      match get_as_bv_z3_ast r (bit_length rt) s1 with
      | none => none
      | some (right_bv, s2) =>
        let does_not_underflow :=
          Z3Ast.bvSubNoUnderflowA left_bv right_bv (is_signed_integer rt)
        if is_signed_integer rt then
          let does_not_overflow := Z3Ast.bvSubNoOverflowA left_bv right_bv
          some (.notA (.andA does_not_overflow does_not_underflow), s2)
        else
          some (.notA does_not_underflow, s2)
  | .Variable p vt, s =>
    match vt with
    | .Bool => some (.constA p .bool, s)
    | .Char | .I8 | .I16 | .I32 | .I64 | .I128 | .Isize
    | .U8 | .U16 | .U32 | .U64 | .U128 | .Usize => some (.constA p .int, s)
    | .F32 => some (.constA p .f32, s)
    | .F64 => some (.constA p .f64, s)
    | .NonPrimitive => some (mkFresh .any s)
  | .Top, s =>
    -- the source's wildcard arm: log a diagnostic, fall back to a fresh
    -- opaque constant (of the variants modelled here only `Top` reaches it)
    some (mkFresh .any (logDiag .Top s))
termination_by e s => (sizeOf e, anyW e)
decreasing_by
  all_goals
    first
    | (apply Prod.Lex.left; simp_arith; done)
    | (apply Prod.Lex.right; simp_arith; done)
    | (apply Prod.Lex.right
       simp only [boolW, bvW]
       exact Nat.lt_succ_of_le (anyW_le_one _))

/-- The source's `Z3Solver::get_as_numeric_z3_ast` (the numeric view), arm for arm. -/
def get_as_numeric_z3_ast : Expression → EncState → Option ((Bool × Z3Ast) × EncState)
  | .Add l r, s =>
    match get_as_numeric_z3_ast l s with
    | none => none
    | some ((lf, la), s1) =>
      match get_as_numeric_z3_ast r s1 with
      | none => none
      | some ((rf, ra), s2) =>
        if lf = rf then
          if lf then some ((true, .fpaAddA .nearestEven la ra), s2)
          else some ((false, .addA la ra), s2)
        else none
  | .Div l r, s =>
    match get_as_numeric_z3_ast l s with
    | none => none
    | some ((lf, la), s1) =>
      match get_as_numeric_z3_ast r s1 with
      | none => none
      | some ((rf, ra), s2) =>
        if lf = rf then
          if lf then some ((true, .fpaDivA .nearestEven la ra), s2)
          else some ((false, .divA la ra), s2)
        else none
  | .Mul l r, s =>
    match get_as_numeric_z3_ast l s with
    | none => none
    | some ((lf, la), s1) =>
      match get_as_numeric_z3_ast r s1 with
      | none => none
      | some ((rf, ra), s2) =>
        if lf = rf then
          if lf then some ((true, .fpaMulA .nearestEven la ra), s2)
          else some ((false, .mulA la ra), s2)
        else none
  | .Rem l r, s =>
    match get_as_numeric_z3_ast l s with
    | none => none
    | some ((lf, la), s1) =>
      match get_as_numeric_z3_ast r s1 with
      | none => none
      | some ((rf, ra), s2) =>
        if lf = rf then
          if lf then some ((true, .fpaRemA la ra), s2)
          else some ((false, .remA la ra), s2)
        else none
  | .Sub l r, s =>
    match get_as_numeric_z3_ast l s with
    | none => none
    | some ((lf, la), s1) =>
      match get_as_numeric_z3_ast r s1 with
      | none => none
      | some ((rf, ra), s2) =>
        if lf = rf then
          if lf then some ((true, .fpaSubA .nearestEven la ra), s2)
          else some ((false, .subA la ra), s2)
        else none
  | .And l r, s => numFold (get_as_z3_ast (.And l r) s)
  | .Equals l r, s => numFold (get_as_z3_ast (.Equals l r) s)
  | .GreaterOrEqual l r, s => numFold (get_as_z3_ast (.GreaterOrEqual l r) s)
  | .GreaterThan l r, s => numFold (get_as_z3_ast (.GreaterThan l r) s)
  | .LessOrEqual l r, s => numFold (get_as_z3_ast (.LessOrEqual l r) s)
  | .LessThan l r, s => numFold (get_as_z3_ast (.LessThan l r) s)
  | .Ne l r, s => numFold (get_as_z3_ast (.Ne l r) s)
  | .Not x, s => numFold (get_as_z3_ast (.Not x) s)
  | .Or l r, s => numFold (get_as_z3_ast (.Or l r) s)
  | .BitAnd l r, s => bvFold (get_as_bv_z3_ast (.BitAnd l r) 128 s)
  | .BitOr l r, s => bvFold (get_as_bv_z3_ast (.BitOr l r) 128 s)
  | .BitXor l r, s => bvFold (get_as_bv_z3_ast (.BitXor l r) 128 s)
  | .Shl l r, s => bvFold (get_as_bv_z3_ast (.Shl l r) 128 s)
  | .Shr l r rt, s => bvFold (get_as_bv_z3_ast (.Shr l r rt) 128 s)
  | .CompileTimeConstant c, s =>
    match c with
    | .False => some ((false, .intNum 0), s)
    | .True => some ((false, .intNum 1), s)
    | .F32 bits => withFloat true (get_as_z3_ast (.CompileTimeConstant (.F32 bits)) s)
    | .F64 bits => withFloat true (get_as_z3_ast (.CompileTimeConstant (.F64 bits)) s)
    | .Char v => withFloat false (get_as_z3_ast (.CompileTimeConstant (.Char v)) s)
    | .I128 v => withFloat false (get_as_z3_ast (.CompileTimeConstant (.I128 v)) s)
    | .U128 v => withFloat false (get_as_z3_ast (.CompileTimeConstant (.U128 v)) s)
    | .Str str => withFloat false (get_as_z3_ast (.CompileTimeConstant (.Str str)) s)
    | .Bottom => withFloat false (get_as_z3_ast (.CompileTimeConstant .Bottom) s)
  | .ConditionalExpression c t a, s =>
    match get_as_bool_z3_ast c s with
    | none => none
    | some (ca, s1) =>
      match get_as_numeric_z3_ast t s1 with
      | none => none
      | some ((cf, ta), s2) =>
        match get_as_numeric_z3_ast a s2 with
        | none => none
        | some ((af, aa), s3) =>
          if cf = af then some ((cf, .iteA ca ta aa), s3) else none
  | .Neg x, s =>
    match get_as_numeric_z3_ast x s with
    | none => none
    | some ((f, xa), s1) =>
      if f then some ((true, .fpaNegA xa), s1)
      else some ((false, .unaryMinusA xa), s1)
  | .Reference p, s => some ((false, .constA ("&" ++ p) .int), s)
  | .Variable p vt, s =>
    match vt with
    | .Bool => some ((false, .constA p .int), s)
    | .NonPrimitive => some ((false, .constA p .int), s)
    | .F32 => withFloat true (get_as_z3_ast (.Variable p .F32) s)
    | .F64 => withFloat true (get_as_z3_ast (.Variable p .F64) s)
    | .Char => withFloat false (get_as_z3_ast (.Variable p .Char) s)
    | .I8 => withFloat false (get_as_z3_ast (.Variable p .I8) s)
    | .I16 => withFloat false (get_as_z3_ast (.Variable p .I16) s)
    | .I32 => withFloat false (get_as_z3_ast (.Variable p .I32) s)
    | .I64 => withFloat false (get_as_z3_ast (.Variable p .I64) s)
    | .I128 => withFloat false (get_as_z3_ast (.Variable p .I128) s)
    | .Isize => withFloat false (get_as_z3_ast (.Variable p .Isize) s)
    | .U8 => withFloat false (get_as_z3_ast (.Variable p .U8) s)
    | .U16 => withFloat false (get_as_z3_ast (.Variable p .U16) s)
    | .U32 => withFloat false (get_as_z3_ast (.Variable p .U32) s)
    | .U64 => withFloat false (get_as_z3_ast (.Variable p .U64) s)
    | .U128 => withFloat false (get_as_z3_ast (.Variable p .U128) s)
    | .Usize => withFloat false (get_as_z3_ast (.Variable p .Usize) s)
  | .Top, s =>
    let p := mkFresh .int s
    some ((false, p.1), p.2)
  | .AddOverflows l r rt, s => withFloat false (get_as_z3_ast (.AddOverflows l r rt) s)
  | .SubOverflows l r rt, s => withFloat false (get_as_z3_ast (.SubOverflows l r rt) s)
  | .MulOverflows l r rt, s => withFloat false (get_as_z3_ast (.MulOverflows l r rt) s)
  | .ShlOverflows l r rt, s => withFloat false (get_as_z3_ast (.ShlOverflows l r rt) s)
  | .ShrOverflows l r rt, s => withFloat false (get_as_z3_ast (.ShrOverflows l r rt) s)
termination_by e s => (sizeOf e, numW e)
decreasing_by
  all_goals
    first
    | (apply Prod.Lex.left; simp_arith; done)
    | (apply Prod.Lex.right; simp_arith; done)
    | (apply Prod.Lex.right
       simp only [boolW, bvW]
       exact Nat.lt_succ_of_le (anyW_le_one _))

/-- The source's `Z3Solver::get_as_bool_z3_ast` (the boolean view), arm for arm; the
source's final wildcard arm (delegate to the any view) is spelled out per
remaining constructor. -/
def get_as_bool_z3_ast : Expression → EncState → Option (Z3Ast × EncState)
  | .BitAnd l r, s => bvNonzero (get_as_bv_z3_ast (.BitAnd l r) 128 s)
  | .BitOr l r, s => bvNonzero (get_as_bv_z3_ast (.BitOr l r) 128 s)
  | .BitXor l r, s => bvNonzero (get_as_bv_z3_ast (.BitXor l r) 128 s)
  | .CompileTimeConstant c, s =>
    match c with
    | .False => some (.falseA, s)
    | .True => some (.trueA, s)
    | .Char v => get_as_z3_ast (.CompileTimeConstant (.Char v)) s
    | .I128 v => get_as_z3_ast (.CompileTimeConstant (.I128 v)) s
    | .U128 v => get_as_z3_ast (.CompileTimeConstant (.U128 v)) s
    | .F32 bits => get_as_z3_ast (.CompileTimeConstant (.F32 bits)) s
    | .F64 bits => get_as_z3_ast (.CompileTimeConstant (.F64 bits)) s
    | .Str str => get_as_z3_ast (.CompileTimeConstant (.Str str)) s
    | .Bottom => get_as_z3_ast (.CompileTimeConstant .Bottom) s
  | .Top, s => some (mkFresh .bool s)
  | .Add l r, s => get_as_z3_ast (.Add l r) s
  | .AddOverflows l r rt, s => get_as_z3_ast (.AddOverflows l r rt) s
  | .And l r, s => get_as_z3_ast (.And l r) s
  | .ConditionalExpression c t a, s => get_as_z3_ast (.ConditionalExpression c t a) s
  | .Div l r, s => get_as_z3_ast (.Div l r) s
  | .Equals l r, s => get_as_z3_ast (.Equals l r) s
  | .GreaterOrEqual l r, s => get_as_z3_ast (.GreaterOrEqual l r) s
  | .GreaterThan l r, s => get_as_z3_ast (.GreaterThan l r) s
  | .LessOrEqual l r, s => get_as_z3_ast (.LessOrEqual l r) s
  | .LessThan l r, s => get_as_z3_ast (.LessThan l r) s
  | .Mul l r, s => get_as_z3_ast (.Mul l r) s
  | .MulOverflows l r rt, s => get_as_z3_ast (.MulOverflows l r rt) s
  | .Ne l r, s => get_as_z3_ast (.Ne l r) s
  | .Neg x, s => get_as_z3_ast (.Neg x) s
  | .Not x, s => get_as_z3_ast (.Not x) s
  | .Or l r, s => get_as_z3_ast (.Or l r) s
  | .Reference p, s => get_as_z3_ast (.Reference p) s
  | .Rem l r, s => get_as_z3_ast (.Rem l r) s
  | .Shl l r, s => get_as_z3_ast (.Shl l r) s
  | .Shr l r rt, s => get_as_z3_ast (.Shr l r rt) s
  | .ShlOverflows l r rt, s => get_as_z3_ast (.ShlOverflows l r rt) s
  | .ShrOverflows l r rt, s => get_as_z3_ast (.ShrOverflows l r rt) s
  | .Sub l r, s => get_as_z3_ast (.Sub l r) s
  | .SubOverflows l r rt, s => get_as_z3_ast (.SubOverflows l r rt) s
  | .Variable p vt, s => get_as_z3_ast (.Variable p vt) s
termination_by e s => (sizeOf e, boolW e)
decreasing_by
  all_goals
    first
    | (apply Prod.Lex.left; simp_arith; done)
    | (apply Prod.Lex.right; simp_arith; done)
    | (apply Prod.Lex.right
       simp only [boolW, bvW]
       exact Nat.lt_succ_of_le (anyW_le_one _))

/-- The source's `Z3Solver::get_as_bv_z3_ast` (the bit-vector view at an explicit width),
arm for arm; the source's final wildcard arm (fall back to the any view) is
spelled out per remaining constructor. -/
def get_as_bv_z3_ast : Expression → Nat → EncState → Option (Z3Ast × EncState)
  | .And l r, num_bits, s => boolToBv num_bits (get_as_z3_ast (.And l r) s)
  | .Equals l r, num_bits, s => boolToBv num_bits (get_as_z3_ast (.Equals l r) s)
  | .GreaterOrEqual l r, num_bits, s =>
    boolToBv num_bits (get_as_z3_ast (.GreaterOrEqual l r) s)
  | .GreaterThan l r, num_bits, s =>
    boolToBv num_bits (get_as_z3_ast (.GreaterThan l r) s)
  | .LessOrEqual l r, num_bits, s =>
    boolToBv num_bits (get_as_z3_ast (.LessOrEqual l r) s)
  | .LessThan l r, num_bits, s => boolToBv num_bits (get_as_z3_ast (.LessThan l r) s)
  | .Ne l r, num_bits, s => boolToBv num_bits (get_as_z3_ast (.Ne l r) s)
  | .Not x, num_bits, s => boolToBv num_bits (get_as_z3_ast (.Not x) s)
  | .Or l r, num_bits, s => boolToBv num_bits (get_as_z3_ast (.Or l r) s)
  | .BitAnd l r, num_bits, s =>
    match get_as_bv_z3_ast l num_bits s with
    | none => none
    | some (la, s1) =>
      match get_as_bv_z3_ast r num_bits s1 with
      | none => none
      | some (ra, s2) => some (.bvAndA la ra, s2)
  | .BitOr l r, num_bits, s =>
    match get_as_bv_z3_ast l num_bits s with
    | none => none
    | some (la, s1) =>
      match get_as_bv_z3_ast r num_bits s1 with
      | none => none
      | some (ra, s2) => some (.bvOrA la ra, s2)
  | .BitXor l r, num_bits, s =>
    match get_as_bv_z3_ast l num_bits s with
    | none => none
    | some (la, s1) =>
      match get_as_bv_z3_ast r num_bits s1 with
      | none => none
      | some (ra, s2) => some (.bvXorA la ra, s2)
  | .CompileTimeConstant c, num_bits, s =>
    match get_as_numeric_z3_ast (.CompileTimeConstant c) s with
    | none => none
    | some ((f, na), s1) =>
      if f then none
      else some (.int2bvA num_bits na, s1)
  | .ConditionalExpression c t a, num_bits, s =>
    match get_as_bool_z3_ast c s with
    | none => none
    | some (ca, s1) =>
      match get_as_bv_z3_ast t num_bits s1 with
      | none => none
      | some (ta, s2) =>
        match get_as_bv_z3_ast a num_bits s2 with
        | none => none
        | some (aa, s3) => some (.iteA ca ta aa, s3)
  | .Shl l r, num_bits, s =>
    match get_as_bv_z3_ast l num_bits s with
    | none => none
    | some (la, s1) =>
      match get_as_bv_z3_ast r num_bits s1 with
      | none => none
      | some (ra, s2) => some (.bvShlA la ra, s2)
  | .Shr l r rt, num_bits, s =>
    match get_as_bv_z3_ast l num_bits s with
    | none => none
    | some (la, s1) =>
      match get_as_bv_z3_ast r num_bits s1 with
      | none => none
      | some (ra, s2) =>
        some (if is_signed_integer rt then .bvAShrA la ra else .bvLShrA la ra, s2)
  | .Variable p _, num_bits, s => some (.constA p (.bv num_bits), s)
  | .Top, num_bits, s => some (mkFresh (.bv num_bits) s)
  | .Add l r, _, s => get_as_z3_ast (.Add l r) s
  | .AddOverflows l r rt, _, s => get_as_z3_ast (.AddOverflows l r rt) s
  | .Div l r, _, s => get_as_z3_ast (.Div l r) s
  | .Mul l r, _, s => get_as_z3_ast (.Mul l r) s
  | .MulOverflows l r rt, _, s => get_as_z3_ast (.MulOverflows l r rt) s
  | .Neg x, _, s => get_as_z3_ast (.Neg x) s
  | .Reference p, _, s => get_as_z3_ast (.Reference p) s
  | .Rem l r, _, s => get_as_z3_ast (.Rem l r) s
  | .ShlOverflows l r rt, _, s => get_as_z3_ast (.ShlOverflows l r rt) s
  | .ShrOverflows l r rt, _, s => get_as_z3_ast (.ShrOverflows l r rt) s
  | .Sub l r, _, s => get_as_z3_ast (.Sub l r) s
  | .SubOverflows l r rt, _, s => get_as_z3_ast (.SubOverflows l r rt) s
termination_by e w s => (sizeOf e, bvW e)
decreasing_by
  all_goals
    first
    | (apply Prod.Lex.left; simp_arith; done)
    | (apply Prod.Lex.right; simp_arith; done)
    | (apply Prod.Lex.right
       simp only [boolW, bvW]
       exact Nat.lt_succ_of_le (anyW_le_one _))

end

/-! ## Semantics of the relevant fragment of the solver's term algebra

The claims about `Ne`/`Equals` on floats and about the overflow predicates
speak about satisfiability.  For the closed terms those claims produce
(operands that are compile-time constants), satisfiability coincides with
evaluation, so we give an evaluator for the closed boolean fragment the
encoder emits: IEEE-754 NaN and equality read off the raw bit patterns, and
the `Z3_mk_bv..._no_overflow/underflow` predicates with their documented Z3
semantics (the operation's mathematical result stays within the unsigned
respectively two's-complement range of the width). -/

/-- IEEE-754 binary32 NaN test on the raw bit pattern: exponent all ones and
non-zero mantissa. -/
def isNaN32 (b : Nat) : Bool :=
  (b / 2 ^ 23) % 2 ^ 8 == 255 && b % 2 ^ 23 != 0

/-- IEEE-754 binary64 NaN test on the raw bit pattern. -/
def isNaN64 (b : Nat) : Bool :=
  (b / 2 ^ 52) % 2 ^ 11 == 2047 && b % 2 ^ 52 != 0

/-- IEEE-754 binary32 (ordered) equality on raw bit patterns: false when
either operand is NaN; positive and negative zero are equal; otherwise two
numerals of the same width are equal exactly when their patterns are. -/
def fpEq32 (a b : Nat) : Bool :=
  if isNaN32 a || isNaN32 b then false
  else (a % 2 ^ 31 == 0 && b % 2 ^ 31 == 0) || a == b

/-- IEEE-754 binary64 (ordered) equality on raw bit patterns. -/
def fpEq64 (a b : Nat) : Bool :=
  if isNaN64 a || isNaN64 b then false
  else (a % 2 ^ 63 == 0 && b % 2 ^ 63 == 0) || a == b

/-- Two's-complement reading of a `w`-bit value `v < 2 ^ w`. -/
def toSIntW (w : Nat) (v : Nat) : Int :=
  if v < 2 ^ (w - 1) then (v : Int) else (v : Int) - 2 ^ w

/-- Projection: the value of an integer numeral. -/
def intOf : Z3Ast → Option Int
  | .intNum v => some v
  | _ => none

/-- Projection: the bit pattern of an `f32` numeral. -/
def bits32Of : Z3Ast → Option Nat
  | .fpaNum32 b => some b
  | _ => none

/-- Projection: the bit pattern of an `f64` numeral. -/
def bits64Of : Z3Ast → Option Nat
  | .fpaNum64 b => some b
  | _ => none

/-- Evaluate a closed bit-vector term to its width and unsigned value.  The
only bit-vector leaves the encoder produces for constant operands are
`Z3_mk_int2bv` applied to an integer numeral, whose Z3 semantics is the
numeral reduced modulo `2 ^ w`. -/
def evalBV : Z3Ast → Option (Nat × Nat)
  | .int2bvA w a => (intOf a).map fun v => (w, (v % (2 ^ w : Int)).toNat)
  | _ => none

/-- Evaluate a pair of bit-vector operands of a common positive width to
that width and the two unsigned values. -/
def evalBVPair (l r : Z3Ast) : Option (Nat × Nat × Nat) :=
  (evalBV l).bind fun p => (evalBV r).bind fun q =>
    if p.1 = q.1 ∧ 0 < p.1 then some (p.1, p.2, q.2) else none

/-- Evaluate a closed boolean term of the fragment the encoder emits for
constant operands.  The overflow-predicate cases are the documented Z3
semantics of `Z3_mk_bvadd_no_overflow` and friends: the predicate holds
exactly when the mathematical result of the operation on the two operands
(read as unsigned or two's-complement values of the common width) stays
within the representable range checked by that predicate. -/
def evalB : Z3Ast → Option Bool
  | .trueA => some true
  | .falseA => some false
  | .notA a => (evalB a).map fun b => !b
  | .andA a b => (evalB a).bind fun x => (evalB b).map fun y => x && y
  | .orA a b => (evalB a).bind fun x => (evalB b).map fun y => x || y
  | .or3A a b c =>
    (evalB a).bind fun x => (evalB b).bind fun y => (evalB c).map fun z => x || y || z
  | .eqA l r => (intOf l).bind fun x => (intOf r).map fun y => x == y
  | .geA l r => (intOf l).bind fun x => (intOf r).map fun y => decide (y ≤ x)
  | .gtA l r => (intOf l).bind fun x => (intOf r).map fun y => decide (y < x)
  | .leA l r => (intOf l).bind fun x => (intOf r).map fun y => decide (x ≤ y)
  | .ltA l r => (intOf l).bind fun x => (intOf r).map fun y => decide (x < y)
  | .fpaEqA l r =>
    ((bits32Of l).bind fun a => (bits32Of r).map fun b => fpEq32 a b).orElse
      fun _ => (bits64Of l).bind fun a => (bits64Of r).map fun b => fpEq64 a b
  | .fpaIsNaNA a =>
    ((bits32Of a).map isNaN32).orElse fun _ => (bits64Of a).map isNaN64
  | .bvAddNoOverflowA l r sgn =>
    (evalBVPair l r).map fun t =>
      if sgn then decide (toSIntW t.1 t.2.1 + toSIntW t.1 t.2.2 ≤ 2 ^ (t.1 - 1) - 1)
      else decide (t.2.1 + t.2.2 < 2 ^ t.1)
  | .bvAddNoUnderflowA l r =>
    (evalBVPair l r).map fun t =>
      decide (-(2 ^ (t.1 - 1) : Int) ≤ toSIntW t.1 t.2.1 + toSIntW t.1 t.2.2)
  | .bvSubNoOverflowA l r =>
    (evalBVPair l r).map fun t =>
      decide (toSIntW t.1 t.2.1 - toSIntW t.1 t.2.2 ≤ 2 ^ (t.1 - 1) - 1)
  | .bvSubNoUnderflowA l r sgn =>
    (evalBVPair l r).map fun t =>
      if sgn then decide (-(2 ^ (t.1 - 1) : Int) ≤ toSIntW t.1 t.2.1 - toSIntW t.1 t.2.2)
      else decide (t.2.2 ≤ t.2.1)
  | .bvMulNoOverflowA l r sgn =>
    (evalBVPair l r).map fun t =>
      if sgn then decide (toSIntW t.1 t.2.1 * toSIntW t.1 t.2.2 ≤ 2 ^ (t.1 - 1) - 1)
      else decide (t.2.1 * t.2.2 < 2 ^ t.1)
  | .bvMulNoUnderflowA l r =>
    (evalBVPair l r).map fun t =>
      decide (-(2 ^ (t.1 - 1) : Int) ≤ toSIntW t.1 t.2.1 * toSIntW t.1 t.2.2)
  | _ => none

/-- The Z3 sort of a term, where determined by its head constructor (for the
applied constructors, Z3 derives it from the operands; we follow the left
operand, which is how every well-sorted application the encoder builds is
formed). -/
def sortOf : Z3Ast → Option Z3Sort
  | .trueA => some .bool
  | .falseA => some .bool
  | .intNum _ => some .int
  | .fpaNum32 _ => some .f32
  | .fpaNum64 _ => some .f64
  | .nearestEven => none
  | .andA _ _ => some .bool
  | .orA _ _ => some .bool
  | .or3A _ _ _ => some .bool
  | .notA _ => some .bool
  | .eqA _ _ => some .bool
  | .geA _ _ => some .bool
  | .gtA _ _ => some .bool
  | .leA _ _ => some .bool
  | .ltA _ _ => some .bool
  | .addA _ _ => some .int
  | .mulA _ _ => some .int
  | .subA _ _ => some .int
  | .divA _ _ => some .int
  | .remA _ _ => some .int
  | .unaryMinusA _ => some .int
  | .fpaAddA _ l _ => sortOf l
  | .fpaSubA _ l _ => sortOf l
  | .fpaMulA _ l _ => sortOf l
  | .fpaDivA _ l _ => sortOf l
  | .fpaRemA l _ => sortOf l
  | .fpaNegA a => sortOf a
  | .fpaEqA _ _ => some .bool
  | .fpaGeA _ _ => some .bool
  | .fpaGtA _ _ => some .bool
  | .fpaLeA _ _ => some .bool
  | .fpaLtA _ _ => some .bool
  | .fpaIsNaNA _ => some .bool
  | .iteA _ t _ => sortOf t
  | .bvAndA l _ => sortOf l
  | .bvOrA l _ => sortOf l
  | .bvXorA l _ => sortOf l
  | .bvShlA l _ => sortOf l
  | .bvAShrA l _ => sortOf l
  | .bvLShrA l _ => sortOf l
  | .bvAddNoOverflowA _ _ _ => some .bool
  | .bvAddNoUnderflowA _ _ => some .bool
  | .bvSubNoOverflowA _ _ => some .bool
  | .bvSubNoUnderflowA _ _ _ => some .bool
  | .bvMulNoOverflowA _ _ _ => some .bool
  | .bvMulNoUnderflowA _ _ => some .bool
  | .int2bvA w _ => some (.bv w)
  | .bv2intA _ _ => some .int
  | .constA _ srt => some srt
  | .freshConstA _ srt => some srt

/-- The initial encoder state: fresh counter 0, empty diagnostic log. -/
def s0 : EncState := ⟨0, []⟩

/-! ## Claim theorems -/

/-- The sort the any view gives a `Variable` of the given declared type
(meaningful for the primitive types; `NonPrimitive` variables get a fresh
constant instead of a named one). -/
def anyVarSort : ExpressionType → Z3Sort
  | .Bool => .bool
  | .F32 => .f32
  | .F64 => .f64
  | .NonPrimitive => .any
  | _ => .int

/-- The sort the numeric view gives a `Variable` of the given declared type
(always a named constant: booleans and non-primitives are forced to the
integer sort). -/
def numVarSort : ExpressionType → Z3Sort
  | .F32 => .f32
  | .F64 => .f64
  | _ => .int

/-- The is-float flag the numeric view reports for a `Variable` of the given
declared type. -/
def numVarFloat : ExpressionType → Bool
  | .F32 | .F64 => true
  | _ => false

/-- C10: a `Char` compile-time constant is lowered by the any view to the
integer numeral of its code point reduced modulo `2 ^ 16` (the `as u16`
cast), so two distinct characters whose code points agree modulo `2 ^ 16`
(here U+10000 and U+0000) encode to the same term: the encoding is not
injective on characters. -/
theorem c10_char_constant_encoding :
    (∀ (cp : Nat) (s : EncState),
      get_as_z3_ast (.CompileTimeConstant (.Char cp)) s
        = some (.intNum ((cp % 2 ^ 16 : Nat) : Int), s))
    ∧ get_as_z3_ast (.CompileTimeConstant (.Char 65536)) s0
        = get_as_z3_ast (.CompileTimeConstant (.Char 0)) s0
    ∧ Expression.CompileTimeConstant (.Char 65536) ≠ .CompileTimeConstant (.Char 0) := by
  refine ⟨fun cp s => ?_, ?_, by decide⟩
  · simp [get_as_z3_ast]
  · simp [get_as_z3_ast]

/-- C7 counterexample: lowering an unrecognized compile-time-constant
variant (a string constant) returns a fresh opaque constant but emits **no**
diagnostic: starting from the empty log, the log is still empty
afterwards (only the any view's expression-level wildcard arm logs). -/
theorem c7_counterexample :
    get_as_z3_ast (.CompileTimeConstant (.Str "s")) s0
      = some (.freshConstA 0 .any, { fresh := 1, log := [] }) := by
  simp [get_as_z3_ast, mkFresh, s0]

/-- C7 (amended): an expression kind unrecognized by the any view's dispatch
(`Top` is the kind that reaches the wildcard arm here) is logged as a
diagnostic and lowered to a fresh constant of the opaque sort, and an
unrecognized compile-time-constant variant is lowered to a fresh opaque
constant without a diagnostic; in neither case does lowering fail. -/
theorem c7_unsupported_fallback :
    (∀ s : EncState,
      get_as_z3_ast .Top s
        = some (.freshConstA s.fresh .any, ⟨s.fresh + 1, s.log ++ [.Top]⟩))
    ∧ (∀ (str : String) (s : EncState),
      get_as_z3_ast (.CompileTimeConstant (.Str str)) s
        = some (.freshConstA s.fresh .any, ⟨s.fresh + 1, s.log⟩))
    ∧ (∀ s : EncState,
      get_as_z3_ast (.CompileTimeConstant .Bottom) s
        = some (.freshConstA s.fresh .any, ⟨s.fresh + 1, s.log⟩)) := by
  refine ⟨fun s => ?_, fun str s => ?_, fun s => ?_⟩ <;>
    simp [get_as_z3_ast, mkFresh, logDiag]

/-- C4 counterexample: two `Variable` expressions with identical path and
identical declared type `NonPrimitive`, lowered one after the other through
the any view, yield two **distinct** fresh opaque constants, not the same
named constant. -/
theorem c4_counterexample :
    get_as_z3_ast (.Variable "p" .NonPrimitive) s0
      = some (.freshConstA 0 .any, ⟨1, []⟩)
    ∧ get_as_z3_ast (.Variable "p" .NonPrimitive) ⟨1, []⟩
      = some (.freshConstA 1 .any, ⟨2, []⟩)
    ∧ Z3Ast.freshConstA 0 .any ≠ .freshConstA 1 .any := by
  refine ⟨?_, ?_, by decide⟩ <;> simp [get_as_z3_ast, mkFresh, s0]

/-- C4 (amended): lowering a `Variable` is deterministic and
state-independent except for `NonPrimitive` in the any view, so two
`Variable` expressions with identical path and identical declared type
lower to the same named constant (same symbol name, same sort) through the
same view: in the any view for every primitive declared type, and in the
numeric and bit-vector views for every declared type; only the any view on
`NonPrimitive` variables yields an (intentionally) fresh opaque constant
per occurrence. -/
theorem c4_variable_named_constants :
    (∀ (p : String) (vt : ExpressionType) (s : EncState), vt ≠ .NonPrimitive →
      get_as_z3_ast (.Variable p vt) s = some (.constA p (anyVarSort vt), s))
    ∧ (∀ (p : String) (vt : ExpressionType) (s : EncState),
      get_as_numeric_z3_ast (.Variable p vt) s
        = some ((numVarFloat vt, .constA p (numVarSort vt)), s))
    ∧ (∀ (p : String) (vt : ExpressionType) (w : Nat) (s : EncState),
      get_as_bv_z3_ast (.Variable p vt) w s = some (.constA p (.bv w), s)) := by
  refine ⟨fun p vt s h => ?_, fun p vt s => ?_, fun p vt w s => ?_⟩
  · cases vt <;>
      simp [get_as_z3_ast, anyVarSort] <;> simp at h
  · cases vt <;>
      simp [get_as_numeric_z3_ast, get_as_z3_ast, withFloat, numVarSort, numVarFloat]
  · simp [get_as_bv_z3_ast]

/-- C4 witness: instantiating the amended theorem at path "p" and declared
type `i32`. -/
theorem c4_witness :
    get_as_z3_ast (.Variable "p" .I32) s0 = some (.constA "p" .int, s0) :=
  c4_variable_named_constants.1 "p" .I32 s0 (by decide)

/-- C8: for arithmetic (`Add`, `Sub`, `Mul`, `Div`, `Rem`), `Neg` and
`Reference` expressions, the bit-vector view at any requested width falls
through to the any view and returns its term unchanged — no conversion to a
bit-vector of the requested width happens, and (as the concrete instance
shows) the returned term can be integer-sorted rather than
bit-vector-sorted. -/
theorem c8_bv_view_arith_fallthrough :
    (∀ (l r : Expression) (w : Nat) (s : EncState),
      get_as_bv_z3_ast (.Add l r) w s = get_as_z3_ast (.Add l r) s
      ∧ get_as_bv_z3_ast (.Sub l r) w s = get_as_z3_ast (.Sub l r) s
      ∧ get_as_bv_z3_ast (.Mul l r) w s = get_as_z3_ast (.Mul l r) s
      ∧ get_as_bv_z3_ast (.Div l r) w s = get_as_z3_ast (.Div l r) s
      ∧ get_as_bv_z3_ast (.Rem l r) w s = get_as_z3_ast (.Rem l r) s)
    ∧ (∀ (x : Expression) (w : Nat) (s : EncState),
      get_as_bv_z3_ast (.Neg x) w s = get_as_z3_ast (.Neg x) s)
    ∧ (∀ (p : String) (w : Nat) (s : EncState),
      get_as_bv_z3_ast (.Reference p) w s = get_as_z3_ast (.Reference p) s)
    ∧ get_as_bv_z3_ast
        (.Add (.CompileTimeConstant (.I128 1)) (.CompileTimeConstant (.I128 2))) 8 s0
        = some (.addA (.intNum 1) (.intNum 2), s0)
    ∧ sortOf (.addA (.intNum 1) (.intNum 2)) = some .int := by
  refine ⟨fun l r w s => ⟨?_, ?_, ?_, ?_, ?_⟩, fun x w s => ?_, fun p w s => ?_, ?_, ?_⟩ <;>
    simp [get_as_bv_z3_ast, get_as_z3_ast, get_as_numeric_z3_ast, dropFloat,
      withFloat, sortOf, s0]

/-- C9: the numeric view of a `ConditionalExpression` asserts that the
consequent's and alternate's is-float flags agree and aborts (returns
`none`, modelling the fatal `assert_eq!`) on mismatch; when they agree the
returned pair carries the shared flag and the if-then-else of the three
lowered children. -/
theorem c9_numeric_conditional_floatness (c t a : Expression)
    (s s1 s2 s3 : EncState) (ca ta aa : Z3Ast) (cf af : Bool)
    (hc : get_as_bool_z3_ast c s = some (ca, s1))
    (ht : get_as_numeric_z3_ast t s1 = some ((cf, ta), s2))
    (ha : get_as_numeric_z3_ast a s2 = some ((af, aa), s3)) :
    (cf = af →
      get_as_numeric_z3_ast (.ConditionalExpression c t a) s
        = some ((cf, .iteA ca ta aa), s3))
    ∧ (cf ≠ af →
      get_as_numeric_z3_ast (.ConditionalExpression c t a) s = none) := by
  constructor <;> intro h <;> simp [get_as_numeric_z3_ast, hc, ht, ha, h]

/-- C9 witness: a conditional with boolean constant condition and two
integer-constant branches (both non-float) lowers to the expected
if-then-else with flag `false`. -/
theorem c9_witness :
    get_as_numeric_z3_ast
        (.ConditionalExpression (.CompileTimeConstant .True)
          (.CompileTimeConstant (.I128 1)) (.CompileTimeConstant (.I128 2))) s0
      = some ((false, .iteA .trueA (.intNum 1) (.intNum 2)), s0) :=
  (c9_numeric_conditional_floatness (.CompileTimeConstant .True)
    (.CompileTimeConstant (.I128 1)) (.CompileTimeConstant (.I128 2))
    s0 s0 s0 s0 .trueA (.intNum 1) (.intNum 2) false false
    (by simp [get_as_bool_z3_ast])
    (by simp [get_as_numeric_z3_ast, get_as_z3_ast, withFloat])
    (by simp [get_as_numeric_z3_ast, get_as_z3_ast, withFloat])).1 rfl

/-- Kinds whose entire boolean-view arm is the source's wildcard
"delegate to the any view" arm (everything except the three bitwise kinds,
compile-time constants and `Top`). -/
def boolFallthrough : Expression → Bool
  | .BitAnd _ _ | .BitOr _ _ | .BitXor _ _ | .CompileTimeConstant _ | .Top => false
  | _ => true

/-- C1 counterexample: for `SubOverflows` at the unsigned type `u8` the
encoded term is the negation of the solver's **no-underflow** predicate
(`Z3_mk_bvsub_no_underflow`), which is not the negation of the no-overflow
predicate for that operation, contradicting the claim that for unsigned
types the term is the negation of the no-overflow predicate and that the
no-underflow predicate is never consulted. -/
theorem c1_counterexample :
    get_as_z3_ast
        (.SubOverflows (.CompileTimeConstant (.I128 1))
          (.CompileTimeConstant (.I128 1)) .U8) s0
      = some (.notA (.bvSubNoUnderflowA (.int2bvA 8 (.intNum 1))
          (.int2bvA 8 (.intNum 1)) false), s0)
    ∧ Z3Ast.notA (.bvSubNoUnderflowA (.int2bvA 8 (.intNum 1))
          (.int2bvA 8 (.intNum 1)) false)
      ≠ .notA (.bvSubNoOverflowA (.int2bvA 8 (.intNum 1)) (.int2bvA 8 (.intNum 1))) := by
  refine ⟨?_, by decide⟩
  simp [get_as_z3_ast, get_as_bv_z3_ast, get_as_numeric_z3_ast, withFloat,
    bit_length, is_signed_integer, s0]

/-- C1 (amended): for an unsigned result type, with both operands lowered to
bit-vectors at the result type's exact bit width, `AddOverflows` and
`MulOverflows` encode to exactly the negation of the solver's no-overflow
predicate for the operation, while `SubOverflows` encodes to exactly the
negation of the solver's no-underflow predicate; in each case the other
predicate is not consulted. -/
theorem c1_unsigned_overflow_encoding (l r : Expression) (rt : ExpressionType)
    (s s1 s2 : EncState) (la ra : Z3Ast)
    (hsgn : is_signed_integer rt = false)
    (hl : get_as_bv_z3_ast l (bit_length rt) s = some (la, s1))
    (hr : get_as_bv_z3_ast r (bit_length rt) s1 = some (ra, s2)) :
    get_as_z3_ast (.AddOverflows l r rt) s
      = some (.notA (.bvAddNoOverflowA la ra false), s2)
    ∧ get_as_z3_ast (.MulOverflows l r rt) s
      = some (.notA (.bvMulNoOverflowA la ra false), s2)
    ∧ get_as_z3_ast (.SubOverflows l r rt) s
      = some (.notA (.bvSubNoUnderflowA la ra false), s2) := by
  refine ⟨?_, ?_, ?_⟩ <;> simp [get_as_z3_ast, hl, hr, hsgn]

/-- C1 witness: the amended theorem at `u8` with constant operands 1 and 2. -/
theorem c1_witness :
    get_as_z3_ast
        (.AddOverflows (.CompileTimeConstant (.I128 1))
          (.CompileTimeConstant (.I128 2)) .U8) s0
      = some (.notA (.bvAddNoOverflowA (.int2bvA 8 (.intNum 1))
          (.int2bvA 8 (.intNum 2)) false), s0)
    ∧ get_as_z3_ast
        (.MulOverflows (.CompileTimeConstant (.I128 1))
          (.CompileTimeConstant (.I128 2)) .U8) s0
      = some (.notA (.bvMulNoOverflowA (.int2bvA 8 (.intNum 1))
          (.int2bvA 8 (.intNum 2)) false), s0)
    ∧ get_as_z3_ast
        (.SubOverflows (.CompileTimeConstant (.I128 1))
          (.CompileTimeConstant (.I128 2)) .U8) s0
      = some (.notA (.bvSubNoUnderflowA (.int2bvA 8 (.intNum 1))
          (.int2bvA 8 (.intNum 2)) false), s0) :=
  c1_unsigned_overflow_encoding (.CompileTimeConstant (.I128 1))
    (.CompileTimeConstant (.I128 2)) .U8 s0 s0 s0
    (.int2bvA 8 (.intNum 1)) (.int2bvA 8 (.intNum 2)) (by decide)
    (by simp [get_as_bv_z3_ast, get_as_numeric_z3_ast, get_as_z3_ast, withFloat,
      bit_length])
    (by simp [get_as_bv_z3_ast, get_as_numeric_z3_ast, get_as_z3_ast, withFloat,
      bit_length])

/-- C5 counterexample: the boolean view hands an `Add` node to the any view
unchanged, so it returns an integer-sorted sum, not a boolean-sorted term
and with no nonzero test applied — the boolean view does not lower every
expression to a boolean-sorted term. -/
theorem c5_counterexample :
    get_as_bool_z3_ast
        (.Add (.CompileTimeConstant (.I128 1)) (.CompileTimeConstant (.I128 2))) s0
      = some (.addA (.intNum 1) (.intNum 2), s0)
    ∧ sortOf (.addA (.intNum 1) (.intNum 2)) = some .int
    ∧ some Z3Sort.int ≠ some Z3Sort.bool := by
  refine ⟨?_, by simp [sortOf], by decide⟩
  simp [get_as_bool_z3_ast, get_as_z3_ast, get_as_numeric_z3_ast, dropFloat,
    withFloat, s0]

/-- C5 (amended): the boolean view converts bitwise results to booleans via
the nonzero test (lower at 128 bits, convert to integer, compare-not-equal
with zero), maps the constants `True`/`False` to the literal booleans, gives
`Top` a fresh boolean constant, and delegates every other expression kind
(and every other constant variant) unchanged to the any view — which
produces boolean-sorted terms only for boolean-shaped nodes. -/
theorem c5_bool_view :
    (∀ (l r : Expression) (s s2 : EncState) (a : Z3Ast),
      get_as_bv_z3_ast (.BitAnd l r) 128 s = some (a, s2) →
        get_as_bool_z3_ast (.BitAnd l r) s
          = some (.notA (.eqA (.bv2intA a false) (.intNum 0)), s2))
    ∧ (∀ (l r : Expression) (s s2 : EncState) (a : Z3Ast),
      get_as_bv_z3_ast (.BitOr l r) 128 s = some (a, s2) →
        get_as_bool_z3_ast (.BitOr l r) s
          = some (.notA (.eqA (.bv2intA a false) (.intNum 0)), s2))
    ∧ (∀ (l r : Expression) (s s2 : EncState) (a : Z3Ast),
      get_as_bv_z3_ast (.BitXor l r) 128 s = some (a, s2) →
        get_as_bool_z3_ast (.BitXor l r) s
          = some (.notA (.eqA (.bv2intA a false) (.intNum 0)), s2))
    ∧ (∀ s : EncState,
      get_as_bool_z3_ast (.CompileTimeConstant .True) s = some (.trueA, s))
    ∧ (∀ s : EncState,
      get_as_bool_z3_ast (.CompileTimeConstant .False) s = some (.falseA, s))
    ∧ (∀ s : EncState,
      get_as_bool_z3_ast .Top s
        = some (.freshConstA s.fresh .bool, ⟨s.fresh + 1, s.log⟩))
    ∧ (∀ (c : ConstantDomain) (s : EncState), c ≠ .True → c ≠ .False →
      get_as_bool_z3_ast (.CompileTimeConstant c) s
        = get_as_z3_ast (.CompileTimeConstant c) s)
    ∧ (∀ (e : Expression) (s : EncState), boolFallthrough e = true →
      get_as_bool_z3_ast e s = get_as_z3_ast e s) := by
  refine ⟨fun l r s s2 a h => ?_, fun l r s s2 a h => ?_, fun l r s s2 a h => ?_,
    fun s => ?_, fun s => ?_, fun s => ?_, fun c s h1 h2 => ?_, fun e s h => ?_⟩
  · simp [get_as_bool_z3_ast, bvNonzero, h]
  · simp [get_as_bool_z3_ast, bvNonzero, h]
  · simp [get_as_bool_z3_ast, bvNonzero, h]
  · simp [get_as_bool_z3_ast]
  · simp [get_as_bool_z3_ast]
  · simp [get_as_bool_z3_ast, mkFresh]
  · cases c <;> simp [get_as_bool_z3_ast] <;> simp at h1 h2
  · cases e <;> simp [boolFallthrough] at h <;> simp [get_as_bool_z3_ast]

/-- C5 witness: the amended theorem's bitwise nonzero test at a concrete
`BitAnd` of two integer constants. -/
theorem c5_witness :
    get_as_bool_z3_ast
        (.BitAnd (.CompileTimeConstant (.I128 1)) (.CompileTimeConstant (.I128 2))) s0
      = some (.notA (.eqA
          (.bv2intA (.bvAndA (.int2bvA 128 (.intNum 1)) (.int2bvA 128 (.intNum 2)))
            false) (.intNum 0)), s0) :=
  c5_bool_view.1 (.CompileTimeConstant (.I128 1)) (.CompileTimeConstant (.I128 2))
    s0 s0 (.bvAndA (.int2bvA 128 (.intNum 1)) (.int2bvA 128 (.intNum 2)))
    (by simp [get_as_bv_z3_ast, get_as_numeric_z3_ast, get_as_z3_ast, withFloat])

/-- C6: the any view lowers `BitAnd`, `BitOr`, `BitXor` and `Shl` through
the bit-vector view at the fixed width 128 regardless of the operator's
true result type (these nodes carry none), whereas `Shr` is lowered at the
result type's exact bit width, with an arithmetic shift for signed result
types and a logical shift otherwise. -/
theorem c6_bitwise_shift_widths :
    (∀ (l r : Expression) (s s1 s2 : EncState) (la ra : Z3Ast),
      get_as_bv_z3_ast l 128 s = some (la, s1) →
      get_as_bv_z3_ast r 128 s1 = some (ra, s2) →
      get_as_z3_ast (.BitAnd l r) s = some (.bvAndA la ra, s2)
      ∧ get_as_z3_ast (.BitOr l r) s = some (.bvOrA la ra, s2)
      ∧ get_as_z3_ast (.BitXor l r) s = some (.bvXorA la ra, s2)
      ∧ get_as_z3_ast (.Shl l r) s = some (.bvShlA la ra, s2))
    ∧ (∀ (l r : Expression) (rt : ExpressionType) (s s1 s2 : EncState) (la ra : Z3Ast),
      get_as_bv_z3_ast l (bit_length rt) s = some (la, s1) →
      get_as_bv_z3_ast r (bit_length rt) s1 = some (ra, s2) →
      get_as_z3_ast (.Shr l r rt) s
        = some (if is_signed_integer rt then .bvAShrA la ra else .bvLShrA la ra, s2)) := by
  refine ⟨fun l r s s1 s2 la ra hl hr => ⟨?_, ?_, ?_, ?_⟩,
    fun l r rt s s1 s2 la ra hl hr => ?_⟩ <;>
    simp [get_as_z3_ast, get_as_bv_z3_ast, hl, hr]

/-- C6 witness: the width behavior at concrete constant operands, with the
signed result type `i8` for the right shift (arithmetic shift at width 8). -/
theorem c6_witness :
    get_as_z3_ast
        (.BitAnd (.CompileTimeConstant (.I128 1)) (.CompileTimeConstant (.I128 2))) s0
      = some (.bvAndA (.int2bvA 128 (.intNum 1)) (.int2bvA 128 (.intNum 2)), s0)
    ∧ get_as_z3_ast
        (.Shr (.CompileTimeConstant (.I128 1)) (.CompileTimeConstant (.I128 2)) .I8) s0
      = some (.bvAShrA (.int2bvA 8 (.intNum 1)) (.int2bvA 8 (.intNum 2)), s0) :=
  ⟨(c6_bitwise_shift_widths.1 (.CompileTimeConstant (.I128 1))
      (.CompileTimeConstant (.I128 2)) s0 s0 s0
      (.int2bvA 128 (.intNum 1)) (.int2bvA 128 (.intNum 2))
      (by simp [get_as_bv_z3_ast, get_as_numeric_z3_ast, get_as_z3_ast, withFloat])
      (by simp [get_as_bv_z3_ast, get_as_numeric_z3_ast, get_as_z3_ast, withFloat])).1,
    by
      have h := c6_bitwise_shift_widths.2 (.CompileTimeConstant (.I128 1))
        (.CompileTimeConstant (.I128 2)) .I8 s0 s0 s0
        (.int2bvA 8 (.intNum 1)) (.int2bvA 8 (.intNum 2))
        (by simp [get_as_bv_z3_ast, get_as_numeric_z3_ast, get_as_z3_ast, withFloat,
          bit_length])
        (by simp [get_as_bv_z3_ast, get_as_numeric_z3_ast, get_as_z3_ast, withFloat,
          bit_length])
      simpa [is_signed_integer] using h⟩

/-- An `f32` compile-time-constant operand with the given raw bit pattern. -/
def fconst32 (b : Nat) : Expression := .CompileTimeConstant (.F32 b)

/-- An `f64` compile-time-constant operand with the given raw bit pattern. -/
def fconst64 (b : Nat) : Expression := .CompileTimeConstant (.F64 b)

/-- The term `Ne` produces for two `f32` numerals: left is NaN, or right is
NaN, or IEEE equality fails. -/
def neTerm32 (b1 b2 : Nat) : Z3Ast :=
  .or3A (.fpaIsNaNA (.fpaNum32 b1)) (.fpaIsNaNA (.fpaNum32 b2))
    (.notA (.fpaEqA (.fpaNum32 b1) (.fpaNum32 b2)))

/-- The term `Ne` produces for two `f64` numerals. -/
def neTerm64 (b1 b2 : Nat) : Z3Ast :=
  .or3A (.fpaIsNaNA (.fpaNum64 b1)) (.fpaIsNaNA (.fpaNum64 b2))
    (.notA (.fpaEqA (.fpaNum64 b1) (.fpaNum64 b2)))

/-- C2: for float-sorted operands `Ne` encodes to the three-way disjunction
"left is NaN, or right is NaN, or IEEE equality fails", while `Equals`
encodes to the ordered IEEE equality predicate, and the `Ne` term is not the
boolean negation of the `Equals` term; on concrete float constants where
one operand is NaN the `Ne` term evaluates to true (is satisfiable)
regardless of the other operand while the `Equals` term on the same pair
evaluates to false (is unsatisfiable), at both float widths. -/
theorem c2_ne_equals_float :
    (∀ (l r : Expression) (s s1 s2 : EncState) (la ra : Z3Ast),
      get_as_numeric_z3_ast l s = some ((true, la), s1) →
      get_as_numeric_z3_ast r s1 = some ((true, ra), s2) →
      get_as_z3_ast (.Ne l r) s
        = some (.or3A (.fpaIsNaNA la) (.fpaIsNaNA ra) (.notA (.fpaEqA la ra)), s2)
      ∧ get_as_z3_ast (.Equals l r) s = some (.fpaEqA la ra, s2)
      ∧ Z3Ast.or3A (.fpaIsNaNA la) (.fpaIsNaNA ra) (.notA (.fpaEqA la ra))
          ≠ .notA (.fpaEqA la ra))
    ∧ (∀ (b1 b2 : Nat) (s : EncState), isNaN32 b1 = true ∨ isNaN32 b2 = true →
      get_as_z3_ast (.Ne (fconst32 b1) (fconst32 b2)) s = some (neTerm32 b1 b2, s)
      ∧ evalB (neTerm32 b1 b2) = some true
      ∧ get_as_z3_ast (.Equals (fconst32 b1) (fconst32 b2)) s
          = some (.fpaEqA (.fpaNum32 b1) (.fpaNum32 b2), s)
      ∧ evalB (.fpaEqA (.fpaNum32 b1) (.fpaNum32 b2)) = some false)
    ∧ (∀ (b1 b2 : Nat) (s : EncState), isNaN64 b1 = true ∨ isNaN64 b2 = true →
      get_as_z3_ast (.Ne (fconst64 b1) (fconst64 b2)) s = some (neTerm64 b1 b2, s)
      ∧ evalB (neTerm64 b1 b2) = some true
      ∧ get_as_z3_ast (.Equals (fconst64 b1) (fconst64 b2)) s
          = some (.fpaEqA (.fpaNum64 b1) (.fpaNum64 b2), s)
      ∧ evalB (.fpaEqA (.fpaNum64 b1) (.fpaNum64 b2)) = some false) := by
  refine ⟨fun l r s s1 s2 la ra hl hr => ⟨?_, ?_, by simp⟩,
    fun b1 b2 s h => ⟨?_, ?_, ?_, ?_⟩, fun b1 b2 s h => ⟨?_, ?_, ?_, ?_⟩⟩
  · simp [get_as_z3_ast, hl, hr]
  · simp [get_as_z3_ast, hl, hr]
  · simp [fconst32, neTerm32, get_as_z3_ast, get_as_numeric_z3_ast, withFloat]
  · rcases h with h | h <;> simp [neTerm32, evalB, bits32Of, bits64Of, h, Option.orElse]
  · simp [fconst32, get_as_z3_ast, get_as_numeric_z3_ast, withFloat]
  · rcases h with h | h <;> simp [evalB, bits32Of, bits64Of, fpEq32, h, Option.orElse]
  · simp [fconst64, neTerm64, get_as_z3_ast, get_as_numeric_z3_ast, withFloat]
  · rcases h with h | h <;> simp [neTerm64, evalB, bits32Of, bits64Of, h, Option.orElse]
  · simp [fconst64, get_as_z3_ast, get_as_numeric_z3_ast, withFloat]
  · rcases h with h | h <;> simp [evalB, bits32Of, bits64Of, fpEq64, h, Option.orElse]

/-- C2 witness: the quiet-NaN bit pattern 0x7FC00000 against the f32 zero
pattern: `Ne` evaluates true, `Equals` evaluates false. -/
theorem c2_witness :
    get_as_z3_ast (.Ne (fconst32 2143289344) (fconst32 0)) s0
      = some (neTerm32 2143289344 0, s0)
    ∧ evalB (neTerm32 2143289344 0) = some true
    ∧ get_as_z3_ast (.Equals (fconst32 2143289344) (fconst32 0)) s0
      = some (.fpaEqA (.fpaNum32 2143289344) (.fpaNum32 0), s0)
    ∧ evalB (.fpaEqA (.fpaNum32 2143289344) (.fpaNum32 0)) = some false :=
  c2_ne_equals_float.2.1 2143289344 0 s0 (Or.inl (by decide))

/-- An `i128` compile-time-constant operand. -/
def constI (v : Int) : Expression := .CompileTimeConstant (.I128 v)

/-- The bit-vector the encoder produces for an integer-constant operand at
width `w`: `Z3_mk_int2bv` applied to the numeral. -/
def bvNumeral (w : Nat) (v : Int) : Z3Ast := .int2bvA w (.intNum v)

/-- The two's-complement value of the integer constant `v` once lowered to a
`w`-bit vector. -/
def bvVal (w : Nat) (v : Int) : Int := toSIntW w ((v % (2 ^ w : Int)).toNat)

/-- The signed range of a `w`-bit two's-complement type. -/
def signedRange (w : Nat) (x : Int) : Prop :=
  -(2 ^ (w - 1) : Int) ≤ x ∧ x ≤ 2 ^ (w - 1) - 1

/-- The signed `AddOverflows` term on two integer-constant operands at
width `w`. -/
def addOvTerm (w : Nat) (v1 v2 : Int) : Z3Ast :=
  .notA (.andA (.bvAddNoOverflowA (bvNumeral w v1) (bvNumeral w v2) true)
    (.bvAddNoUnderflowA (bvNumeral w v1) (bvNumeral w v2)))

/-- The signed `SubOverflows` term on two integer-constant operands at
width `w`. -/
def subOvTerm (w : Nat) (v1 v2 : Int) : Z3Ast :=
  .notA (.andA (.bvSubNoOverflowA (bvNumeral w v1) (bvNumeral w v2))
    (.bvSubNoUnderflowA (bvNumeral w v1) (bvNumeral w v2) true))

/-- The signed `MulOverflows` term on two integer-constant operands at
width `w`. -/
def mulOvTerm (w : Nat) (v1 v2 : Int) : Z3Ast :=
  .notA (.andA (.bvMulNoOverflowA (bvNumeral w v1) (bvNumeral w v2) true)
    (.bvMulNoUnderflowA (bvNumeral w v1) (bvNumeral w v2)))

/-- Evaluation of the signed `AddOverflows` term: true exactly when the
mathematical sum of the two operand values escapes the signed range. -/
theorem evalB_addOvTerm (w : Nat) (hw : 0 < w) (v1 v2 : Int) :
    evalB (addOvTerm w v1 v2) = some true ↔
      ¬ signedRange w (bvVal w v1 + bvVal w v2) := by
  simp [addOvTerm, bvNumeral, evalB, evalBVPair, evalBV, intOf, hw, signedRange, bvVal]
  generalize toSIntW w ((v1 % (2 ^ w : Int)).toNat) = a
  generalize toSIntW w ((v2 % (2 ^ w : Int)).toNat) = b
  generalize (2 : Int) ^ (w - 1) = M
  omega

/-- Evaluation of the signed `SubOverflows` term: true exactly when the
mathematical difference escapes the signed range. -/
theorem evalB_subOvTerm (w : Nat) (hw : 0 < w) (v1 v2 : Int) :
    evalB (subOvTerm w v1 v2) = some true ↔
      ¬ signedRange w (bvVal w v1 - bvVal w v2) := by
  simp [subOvTerm, bvNumeral, evalB, evalBVPair, evalBV, intOf, hw, signedRange, bvVal]
  generalize toSIntW w ((v1 % (2 ^ w : Int)).toNat) = a
  generalize toSIntW w ((v2 % (2 ^ w : Int)).toNat) = b
  generalize (2 : Int) ^ (w - 1) = M
  omega

/-- Evaluation of the signed `MulOverflows` term: true exactly when the
mathematical product escapes the signed range. -/
theorem evalB_mulOvTerm (w : Nat) (hw : 0 < w) (v1 v2 : Int) :
    evalB (mulOvTerm w v1 v2) = some true ↔
      ¬ signedRange w (bvVal w v1 * bvVal w v2) := by
  simp [mulOvTerm, bvNumeral, evalB, evalBVPair, evalBV, intOf, hw, signedRange, bvVal]
  generalize toSIntW w ((v1 % (2 ^ w : Int)).toNat) * toSIntW w ((v2 % (2 ^ w : Int)).toNat) = c
  generalize (2 : Int) ^ (w - 1) = M
  omega

/-- C3: for a signed result type, `AddOverflows`, `SubOverflows` and
`MulOverflows` encode to NOT(AND(no-overflow, no-underflow)) over the two
operands lowered to bit-vectors at the result type's exact bit width; and on
integer-constant operands that predicate evaluates to true (is satisfiable)
exactly when the mathematical sum / difference / product of the two
operand values escapes the signed range of that width. -/
theorem c3_signed_overflow_encoding :
    (∀ (l r : Expression) (rt : ExpressionType) (s s1 s2 : EncState) (la ra : Z3Ast),
      is_signed_integer rt = true →
      get_as_bv_z3_ast l (bit_length rt) s = some (la, s1) →
      get_as_bv_z3_ast r (bit_length rt) s1 = some (ra, s2) →
      get_as_z3_ast (.AddOverflows l r rt) s
        = some (.notA (.andA (.bvAddNoOverflowA la ra true)
            (.bvAddNoUnderflowA la ra)), s2)
      ∧ get_as_z3_ast (.SubOverflows l r rt) s
        = some (.notA (.andA (.bvSubNoOverflowA la ra)
            (.bvSubNoUnderflowA la ra true)), s2)
      ∧ get_as_z3_ast (.MulOverflows l r rt) s
        = some (.notA (.andA (.bvMulNoOverflowA la ra true)
            (.bvMulNoUnderflowA la ra)), s2))
    ∧ (∀ (rt : ExpressionType) (v1 v2 : Int) (s : EncState),
      is_signed_integer rt = true →
      (get_as_z3_ast (.AddOverflows (constI v1) (constI v2) rt) s
          = some (addOvTerm (bit_length rt) v1 v2, s)
        ∧ (evalB (addOvTerm (bit_length rt) v1 v2) = some true ↔
            ¬ signedRange (bit_length rt)
              (bvVal (bit_length rt) v1 + bvVal (bit_length rt) v2)))
      ∧ (get_as_z3_ast (.SubOverflows (constI v1) (constI v2) rt) s
          = some (subOvTerm (bit_length rt) v1 v2, s)
        ∧ (evalB (subOvTerm (bit_length rt) v1 v2) = some true ↔
            ¬ signedRange (bit_length rt)
              (bvVal (bit_length rt) v1 - bvVal (bit_length rt) v2)))
      ∧ (get_as_z3_ast (.MulOverflows (constI v1) (constI v2) rt) s
          = some (mulOvTerm (bit_length rt) v1 v2, s)
        ∧ (evalB (mulOvTerm (bit_length rt) v1 v2) = some true ↔
            ¬ signedRange (bit_length rt)
              (bvVal (bit_length rt) v1 * bvVal (bit_length rt) v2)))) := by
  constructor
  · intro l r rt s s1 s2 la ra hs hl hr
    refine ⟨?_, ?_, ?_⟩ <;> simp [get_as_z3_ast, hl, hr, hs]
  · intro rt v1 v2 s hs
    have hw : 0 < bit_length rt := by cases rt <;> simp [bit_length]
    refine ⟨⟨?_, evalB_addOvTerm _ hw v1 v2⟩, ⟨?_, evalB_subOvTerm _ hw v1 v2⟩,
      ⟨?_, evalB_mulOvTerm _ hw v1 v2⟩⟩ <;>
      simp [constI, addOvTerm, subOvTerm, mulOvTerm, bvNumeral, get_as_z3_ast,
        get_as_bv_z3_ast, get_as_numeric_z3_ast, withFloat, hs]

/-- C3 witness: at the signed 8-bit type, `AddOverflows` on the constants
100 and 100 is satisfiable (100 + 100 escapes the signed 8-bit range) and on
the constants 1 and 2 it is unsatisfiable. -/
theorem c3_witness :
    (get_as_z3_ast (.AddOverflows (constI 100) (constI 100) .I8) s0
        = some (addOvTerm 8 100 100, s0)
      ∧ (evalB (addOvTerm 8 100 100) = some true ↔
          ¬ signedRange 8 (bvVal 8 100 + bvVal 8 100)))
    ∧ evalB (addOvTerm 8 100 100) = some true
    ∧ evalB (addOvTerm 8 1 2) = some false :=
  ⟨((c3_signed_overflow_encoding.2 .I8 100 100 s0 (by decide)).1 : _),
    by decide, by decide⟩

end MiraiZ3
